import Mathlib

/-!
Verification of the FastBERT adaptive early-exit inference pipeline
(`src/uf/application/fast_bert.py`, `FastBERTClassifier._get_predict_outputs`
and `FastBERTClassifier._get_score_outputs`).

The Python `_permutate` closure consumes a flat stream `batch_probs` of
probability vectors, replays the cascade-router decision rule, and scatters
each consumed vector back to its original batch position.  The decision for
the vector consumed at stream position `i` is
`_uncertainty(batch_probs[i][0]) < self._speed or loop == max_loop - 1`.

Two embeddings are given:

* an index-level engine (`innerLoop` / `cascadeLoops` / `deviceLoops` /
  `permutateCore` / `permutate`) that is parameterised by the early-exit
  decision `early : ℕ → Bool` taken at each stream position (the value
  `early i` stands for `_uncertainty(batch_probs[i][0]) < self._speed`) and
  records, instead of mutating numpy arrays, the list of writes
  `(table position, stream index consumed, source head)` that the Python
  code performs, together with the final consumption counter `i`.  The
  `assert i == len(batch_probs)` and the out-of-range stream access are
  modelled by `permutate` returning `Except PermError`.

* a value-level embedding over `ℝ` of the two (textually duplicated)
  `_permutate`/`_uncertainty` closures, one pair from
  `_get_predict_outputs` (`uncertainty`, `predictPermInner`,
  `predictCascade`, `predictDevices`, `predictPermutate`) and one from
  `_get_score_outputs` (`scoreUncertainty`, `scorePermInner`,
  `scoreCascade`, `scoreDevices`, `scorePermutate`).  Numpy arrays become
  lists updated with `List.set`; an out-of-range stream read, which numpy
  would turn into an `IndexError`, is modelled by `List.getD` returning the
  empty vector (the error cases themselves are modelled precisely by the
  index-level `permutate`).
-/

namespace FastBERT

/-- Embeds `max_loop = self.bert_config.num_hidden_layers + 1 - len(self._ignore_cls)`.
Natural-number subtraction truncates at 0 exactly as Python's
`range(max_loop)` is empty for `max_loop <= 0`. -/
def maxLoop (numHiddenLayers : ℕ) (ignoreCls : List ℕ) : ℕ :=
  numHiddenLayers + 1 - ignoreCls.length

/-- Embeds `keep_cls = [cls_idx for cls_idx in list(range(num_hidden_layers + 1))
if cls_idx not in ignore_cls]`. -/
def keepCls (numHiddenLayers : ℕ) (ignoreCls : List ℕ) : List ℕ :=
  (List.range (numHiddenLayers + 1)).filter (fun c => decide (c ∉ ignoreCls))

/-- Embeds the inner `for k in range(len(unfinished))` loop of `_permutate`.
`early i` stands for the test `_uncertainty(batch_probs[i][0]) < self._speed`
at stream position `i`; `isLast` stands for `loop == max_loop - 1`.
Returns `(writes, next_unfinished, i)` where each write is
`(table position, stream index consumed, source head)`. -/
def innerLoop (early : ℕ → Bool) (isLast : Bool) (source : ℕ) :
    List ℕ → ℕ → List (ℕ × ℕ × ℕ) × List ℕ × ℕ
  | [], i => ([], [], i)
  | u :: rest, i =>
    let r := innerLoop early isLast source rest (i + 1)
    if early i || isLast then ((u, i, source) :: r.1, r.2.1, r.2.2)
    else (r.1, u :: r.2.1, r.2.2)

/-- Embeds the `for loop in range(max_loop)` loop of `_permutate`, the
counter `loop` starting from the given value and the remaining number of
iterations given as `fuel`; the whole loop is `cascadeLoops early m k 0 m`.
`keep.getD loop 0` embeds `keep_cls[loop]` (in range whenever
`ignore_cls` is a duplicate-free subset of `range(num_hidden_layers + 1)`;
out of range Python would raise an `IndexError`).
Returns `(writes, unfinished, i)` after the remaining iterations. -/
def cascadeLoops (early : ℕ → Bool) (m : ℕ) (keep : List ℕ) :
    ℕ → ℕ → List ℕ → ℕ → List (ℕ × ℕ × ℕ) × List ℕ × ℕ
  | _, 0, unfinished, i => ([], unfinished, i)
  | loop, fuel + 1, unfinished, i =>
    let source := keep.getD loop 0
    let isLast := loop == m - 1
    let step := innerLoop early isLast source unfinished i
    let rest := cascadeLoops early m keep (loop + 1) fuel step.2.1 step.2.2
    (step.1 ++ rest.1, rest.2.1, rest.2.2)

/-- Embeds the `for d in range(n_device)` loop of `_permutate` (the counter
`d` is only used to count iterations, so it is run down as fuel).  Each
device initialises `unfinished = [k + i for k in range(d_batch_size)]` with
the current global stream counter `i`, exactly as the source does. -/
def deviceLoops (early : ℕ → Bool) (dBatchSize m : ℕ) (keep : List ℕ) :
    ℕ → ℕ → List (ℕ × ℕ × ℕ) × ℕ
  | 0, i => ([], i)
  | d + 1, i =>
    let unfinished := (List.range dBatchSize).map (fun k => k + i)
    let r := cascadeLoops early m keep 0 m unfinished i
    let rest := deviceLoops early dBatchSize m keep d r.2.2
    (r.1 ++ rest.1, rest.2)

/-- Embeds the body of `_permutate` up to (but not including) the final
`assert`: `n_device = max(len(self._gpu_ids), 1)`,
`d_batch_size = self.batch_size // n_device`, then the device loop.
Returns the performed writes and the final consumption counter `i`. -/
def permutateCore (early : ℕ → Bool) (gpuCount batchSize numHiddenLayers : ℕ)
    (ignoreCls : List ℕ) : List (ℕ × ℕ × ℕ) × ℕ :=
  let nDevice := max gpuCount 1
  let dBatchSize := batchSize / nDevice
  deviceLoops early dBatchSize (maxLoop numHiddenLayers ignoreCls)
    (keepCls numHiddenLayers ignoreCls) nDevice 0

/-- The two hard failure modes of `_permutate`: `indexError` models the
`IndexError` Python raises when `batch_probs[i]` is read with
`i >= len(batch_probs)` (the schedule demands more vectors than the stream
holds), `assertionError` models the failure of `assert i == len(batch_probs)`. -/
inductive PermError where
  | indexError
  | assertionError
deriving DecidableEq

/-- Embeds one call of `_permutate` on a stream of length `streamLen`:
the run fails with an `IndexError` as soon as the consumption counter
passes the end of the stream, otherwise the final
`assert i == len(batch_probs)` either passes (the writes are returned)
or raises an `AssertionError`. -/
def permutate (early : ℕ → Bool) (gpuCount batchSize numHiddenLayers : ℕ)
    (ignoreCls : List ℕ) (streamLen : ℕ) : Except PermError (List (ℕ × ℕ × ℕ)) :=
  let r := permutateCore early gpuCount batchSize numHiddenLayers ignoreCls
  if streamLen < r.2 then .error .indexError
  else if r.2 = streamLen then .ok r.1
  else .error .assertionError

/-- Embeds the expression `batch_probs[i][0]` of `_permutate`: the scalar
fed to `_uncertainty` is component `0` of the probability vector, not its
maximum. -/
noncomputable def decisionScalar (v : List ℝ) : ℝ :=
  v.getD 0 0

/-- Modelled from the spec's words ("the top-class (maximum) probability"):
the largest entry of a probability vector, for comparison with
`decisionScalar`.  The source itself never computes this. -/
noncomputable def topClassProb (v : List ℝ) : ℝ :=
  v.foldr max 0

/-- Embeds the `_uncertainty` closure of `_get_predict_outputs`:
`if prob < 1e-20 or 1 - prob < 1e-20: prob = 1e-20` followed by
`(prob * log(prob) + (1 - prob) * log(1 - prob)) / log(1 / label_size)`. -/
noncomputable def uncertainty (labelSize : ℕ) (prob : ℝ) : ℝ :=
  let p := if prob < 1e-20 ∨ 1 - prob < 1e-20 then (1e-20 : ℝ) else prob
  (p * Real.log p + (1 - p) * Real.log (1 - p)) / Real.log (1 / labelSize)

/-- The spec's version of the clamp ("clamp p into [1e-20, 1-1e-20]"),
with the same entropy formula; stated for comparison with `uncertainty`. -/
noncomputable def uncertaintyClamped (labelSize : ℕ) (prob : ℝ) : ℝ :=
  let p := max (1e-20 : ℝ) (min (1 - 1e-20) prob)
  (p * Real.log p + (1 - p) * Real.log (1 - p)) / Real.log (1 / labelSize)

/-- Embeds the `_uncertainty` closure of `_get_score_outputs` (a textual
duplicate of the one in `_get_predict_outputs`). -/
noncomputable def scoreUncertainty (labelSize : ℕ) (prob : ℝ) : ℝ :=
  let p := if prob < 1e-20 ∨ 1 - prob < 1e-20 then (1e-20 : ℝ) else prob
  (p * Real.log p + (1 - p) * Real.log (1 - p)) / Real.log (1 / labelSize)

/-- Value-level embedding of the inner `for k in range(len(unfinished))`
loop of the `_permutate` closure of `_get_predict_outputs`, threading the
`probs` and `sources` tables (numpy arrays become lists updated with
`List.set`).  Returns `(next_unfinished, i, probs, sources)`. -/
noncomputable def predictPermInner (labelSize : ℕ) (speed : ℝ)
    (batchProbs : List (List ℝ)) (isLast : Bool) (source : ℕ) :
    List ℕ → ℕ → List (List ℝ) → List ℕ →
      List ℕ × ℕ × List (List ℝ) × List ℕ
  | [], i, probs, sources => ([], i, probs, sources)
  | u :: rest, i, probs, sources =>
    if uncertainty labelSize (decisionScalar (batchProbs.getD i [])) < speed ∨ isLast then
      predictPermInner labelSize speed batchProbs isLast source rest (i + 1)
        (probs.set u (batchProbs.getD i [])) (sources.set u source)
    else
      let r := predictPermInner labelSize speed batchProbs isLast source rest (i + 1)
        probs sources
      (u :: r.1, r.2)

/-- Value-level embedding of the `for loop in range(max_loop)` loop of the
`_permutate` closure of `_get_predict_outputs`. -/
noncomputable def predictCascade (labelSize : ℕ) (speed : ℝ)
    (batchProbs : List (List ℝ)) (m : ℕ) (keep : List ℕ) :
    ℕ → ℕ → List ℕ → ℕ → List (List ℝ) → List ℕ →
      List ℕ × ℕ × List (List ℝ) × List ℕ
  | _, 0, unfinished, i, probs, sources => (unfinished, i, probs, sources)
  | loop, fuel + 1, unfinished, i, probs, sources =>
    let step := predictPermInner labelSize speed batchProbs (loop == m - 1)
      (keep.getD loop 0) unfinished i probs sources
    predictCascade labelSize speed batchProbs m keep (loop + 1) fuel
      step.1 step.2.1 step.2.2.1 step.2.2.2

/-- Value-level embedding of the `for d in range(n_device)` loop of the
`_permutate` closure of `_get_predict_outputs`. -/
noncomputable def predictDevices (labelSize : ℕ) (speed : ℝ)
    (batchProbs : List (List ℝ)) (dBatchSize m : ℕ) (keep : List ℕ) :
    ℕ → ℕ → List (List ℝ) → List ℕ → ℕ × List (List ℝ) × List ℕ
  | 0, i, probs, sources => (i, probs, sources)
  | d + 1, i, probs, sources =>
    let unfinished := (List.range dBatchSize).map (fun k => k + i)
    let r := predictCascade labelSize speed batchProbs m keep 0 m unfinished i
      probs sources
    predictDevices labelSize speed batchProbs dBatchSize m keep d r.2.1
      r.2.2.1 r.2.2.2

/-- Value-level embedding of the full `_permutate` closure of
`_get_predict_outputs`, including the zero-initialised `probs`/`sources`
tables and the final `assert i == len(batch_probs)`. -/
noncomputable def predictPermutate (gpuCount batchSize labelSize numHiddenLayers : ℕ)
    (ignoreCls : List ℕ) (speed : ℝ) (batchProbs : List (List ℝ)) :
    Except PermError (List (List ℝ) × List ℕ) :=
  let nDevice := max gpuCount 1
  let dBatchSize := batchSize / nDevice
  let m := numHiddenLayers + 1 - ignoreCls.length
  let keep := (List.range (numHiddenLayers + 1)).filter (fun c => decide (c ∉ ignoreCls))
  let r := predictDevices labelSize speed batchProbs dBatchSize m keep nDevice 0
    (List.replicate batchSize (List.replicate labelSize 0)) (List.replicate batchSize 0)
  if r.1 = batchProbs.length then .ok r.2 else .error .assertionError

/-- Value-level embedding of the inner loop of the `_permutate` closure of
`_get_score_outputs` (a textual duplicate of the one in
`_get_predict_outputs`). -/
noncomputable def scorePermInner (labelSize : ℕ) (speed : ℝ)
    (batchProbs : List (List ℝ)) (isLast : Bool) (source : ℕ) :
    List ℕ → ℕ → List (List ℝ) → List ℕ →
      List ℕ × ℕ × List (List ℝ) × List ℕ
  | [], i, probs, sources => ([], i, probs, sources)
  | u :: rest, i, probs, sources =>
    if scoreUncertainty labelSize (decisionScalar (batchProbs.getD i [])) < speed ∨ isLast then
      scorePermInner labelSize speed batchProbs isLast source rest (i + 1)
        (probs.set u (batchProbs.getD i [])) (sources.set u source)
    else
      let r := scorePermInner labelSize speed batchProbs isLast source rest (i + 1)
        probs sources
      (u :: r.1, r.2)

/-- Value-level embedding of the cascade loop of the `_permutate` closure of
`_get_score_outputs`. -/
noncomputable def scoreCascade (labelSize : ℕ) (speed : ℝ)
    (batchProbs : List (List ℝ)) (m : ℕ) (keep : List ℕ) :
    ℕ → ℕ → List ℕ → ℕ → List (List ℝ) → List ℕ →
      List ℕ × ℕ × List (List ℝ) × List ℕ
  | _, 0, unfinished, i, probs, sources => (unfinished, i, probs, sources)
  | loop, fuel + 1, unfinished, i, probs, sources =>
    let step := scorePermInner labelSize speed batchProbs (loop == m - 1)
      (keep.getD loop 0) unfinished i probs sources
    scoreCascade labelSize speed batchProbs m keep (loop + 1) fuel
      step.1 step.2.1 step.2.2.1 step.2.2.2

/-- Value-level embedding of the device loop of the `_permutate` closure of
`_get_score_outputs`. -/
noncomputable def scoreDevices (labelSize : ℕ) (speed : ℝ)
    (batchProbs : List (List ℝ)) (dBatchSize m : ℕ) (keep : List ℕ) :
    ℕ → ℕ → List (List ℝ) → List ℕ → ℕ × List (List ℝ) × List ℕ
  | 0, i, probs, sources => (i, probs, sources)
  | d + 1, i, probs, sources =>
    let unfinished := (List.range dBatchSize).map (fun k => k + i)
    let r := scoreCascade labelSize speed batchProbs m keep 0 m unfinished i
      probs sources
    scoreDevices labelSize speed batchProbs dBatchSize m keep d r.2.1
      r.2.2.1 r.2.2.2

/-- Value-level embedding of the full `_permutate` closure of
`_get_score_outputs`, including the zero-initialised tables and the final
`assert i == len(batch_probs)`. -/
noncomputable def scorePermutate (gpuCount batchSize labelSize numHiddenLayers : ℕ)
    (ignoreCls : List ℕ) (speed : ℝ) (batchProbs : List (List ℝ)) :
    Except PermError (List (List ℝ) × List ℕ) :=
  let nDevice := max gpuCount 1
  let dBatchSize := batchSize / nDevice
  let m := numHiddenLayers + 1 - ignoreCls.length
  let keep := (List.range (numHiddenLayers + 1)).filter (fun c => decide (c ∉ ignoreCls))
  let r := scoreDevices labelSize speed batchProbs dBatchSize m keep nDevice 0
    (List.replicate batchSize (List.replicate labelSize 0)) (List.replicate batchSize 0)
  if r.1 = batchProbs.length then .ok r.2 else .error .assertionError

/-! Basic facts about the index-level permutation engine. -/

theorem innerLoop_counter (early : ℕ → Bool) (isLast : Bool) (source : ℕ) :
    ∀ (unf : List ℕ) (i : ℕ),
      (innerLoop early isLast source unf i).2.2 = i + unf.length := by
  intro unf
  induction unf with
  | nil => intro i; rfl
  | cons u rest ih =>
    intro i
    simp only [innerLoop]
    split <;> simp only [List.length_cons] <;> rw [ih (i + 1)] <;> omega

theorem innerLoop_perm (early : ℕ → Bool) (isLast : Bool) (source : ℕ) :
    ∀ (unf : List ℕ) (i : ℕ),
      List.Perm
        (((innerLoop early isLast source unf i).1.map fun w => w.1) ++
          (innerLoop early isLast source unf i).2.1) unf := by
  intro unf
  induction unf with
  | nil => intro i; simp [innerLoop]
  | cons u rest ih =>
    intro i
    simp only [innerLoop]
    split
    · simpa using (ih (i + 1)).cons u
    · exact List.perm_middle.trans ((ih (i + 1)).cons u)

theorem innerLoop_last_unfinished (early : ℕ → Bool) (source : ℕ) :
    ∀ (unf : List ℕ) (i : ℕ), (innerLoop early true source unf i).2.1 = [] := by
  intro unf
  induction unf with
  | nil => intro i; rfl
  | cons u rest ih => intro i; simp [innerLoop, ih (i + 1)]

theorem innerLoop_last_writes (early : ℕ → Bool) (source : ℕ) :
    ∀ (unf : List ℕ) (i : ℕ),
      ((innerLoop early true source unf i).1.map fun w => w.1) = unf := by
  intro unf
  induction unf with
  | nil => intro i; rfl
  | cons u rest ih => intro i; simp [innerLoop, ih (i + 1)]

theorem innerLoop_sources (early : ℕ → Bool) (isLast : Bool) (source : ℕ) :
    ∀ (unf : List ℕ) (i : ℕ) (w : ℕ × ℕ × ℕ),
      w ∈ (innerLoop early isLast source unf i).1 → w.2.2 = source := by
  intro unf
  induction unf with
  | nil => intro i w hw; simp [innerLoop] at hw
  | cons u rest ih =>
    intro i w hw
    simp only [innerLoop] at hw
    split at hw
    · rcases List.mem_cons.mp hw with h | h
      · rw [h]
      · exact ih (i + 1) w h
    · exact ih (i + 1) w hw

theorem innerLoop_writes_char (early : ℕ → Bool) (isLast : Bool) (source : ℕ) :
    ∀ (unf : List ℕ) (i : ℕ),
      ((innerLoop early isLast source unf i).1.map fun w => (w.1, w.2.1)) =
        (unf.zip (List.range' i unf.length)).filter
          (fun p => early p.2 || isLast) := by
  intro unf
  induction unf with
  | nil => intro i; rfl
  | cons u rest ih =>
    intro i
    simp only [innerLoop, List.length_cons, List.range'_succ, List.zip_cons_cons,
      List.filter_cons]
    split
    · next h => simp [h, ih (i + 1)]
    · next h =>
      have hb : (early i || isLast) = false := by
        cases hh : early i || isLast
        · rfl
        · exact absurd hh h
      simp [hb, ih (i + 1)]

theorem innerLoop_unfinished_char (early : ℕ → Bool) (isLast : Bool) (source : ℕ) :
    ∀ (unf : List ℕ) (i : ℕ),
      (innerLoop early isLast source unf i).2.1 =
        ((unf.zip (List.range' i unf.length)).filter
          (fun p => !(early p.2 || isLast))).map Prod.fst := by
  intro unf
  induction unf with
  | nil => intro i; rfl
  | cons u rest ih =>
    intro i
    simp only [innerLoop, List.length_cons, List.range'_succ, List.zip_cons_cons,
      List.filter_cons]
    split
    · next h => simp [h, ih (i + 1)]
    · next h =>
      have hb : (early i || isLast) = false := by
        cases hh : early i || isLast
        · rfl
        · exact absurd hh h
      simp [hb, ih (i + 1)]

theorem cascadeLoops_perm (early : ℕ → Bool) (m : ℕ) (keep : List ℕ) :
    ∀ (fuel loop : ℕ) (unf : List ℕ) (i : ℕ),
      List.Perm
        (((cascadeLoops early m keep loop fuel unf i).1.map fun w => w.1) ++
          (cascadeLoops early m keep loop fuel unf i).2.1) unf := by
  intro fuel
  induction fuel with
  | zero => intro loop unf i; simp [cascadeLoops]
  | succ f ih =>
    intro loop unf i
    simp only [cascadeLoops, List.map_append, List.append_assoc]
    refine List.Perm.trans ?_ (innerLoop_perm early (loop == m - 1) (keep.getD loop 0) unf i)
    exact List.Perm.append_left _ (ih (loop + 1) _ _)

theorem cascadeLoops_final_empty (early : ℕ → Bool) (m : ℕ) (keep : List ℕ) :
    ∀ (fuel loop : ℕ) (unf : List ℕ) (i : ℕ), loop + fuel = m → 1 ≤ fuel →
      (cascadeLoops early m keep loop fuel unf i).2.1 = [] := by
  intro fuel
  induction fuel with
  | zero => intro loop unf i _ h; omega
  | succ f ih =>
    intro loop unf i hsum _
    simp only [cascadeLoops]
    rcases Nat.eq_zero_or_pos f with hf | hf
    · subst hf
      have hlast : m - 1 = loop := by omega
      rw [hlast]
      simp only [beq_self_eq_true]
      simp [cascadeLoops, innerLoop_last_unfinished]
    · exact ih (loop + 1) _ _ (by omega) hf

theorem cascadeLoops_counter_ge (early : ℕ → Bool) (m : ℕ) (keep : List ℕ) :
    ∀ (fuel loop : ℕ) (unf : List ℕ) (i : ℕ),
      i ≤ (cascadeLoops early m keep loop fuel unf i).2.2 := by
  intro fuel
  induction fuel with
  | zero => intro loop unf i; exact le_refl i
  | succ f ih =>
    intro loop unf i
    simp only [cascadeLoops]
    calc i ≤ i + unf.length := Nat.le_add_right _ _
    _ = (innerLoop early (loop == m - 1) (keep.getD loop 0) unf i).2.2 :=
        (innerLoop_counter _ _ _ _ _).symm
    _ ≤ _ := ih (loop + 1) _ _

theorem cascadeLoops_sources (early : ℕ → Bool) (m : ℕ) (keep : List ℕ) :
    ∀ (fuel loop : ℕ) (unf : List ℕ) (i : ℕ), loop + fuel ≤ keep.length →
      ∀ w ∈ (cascadeLoops early m keep loop fuel unf i).1, w.2.2 ∈ keep := by
  intro fuel
  induction fuel with
  | zero => intro loop unf i _ w hw; simp [cascadeLoops] at hw
  | succ f ih =>
    intro loop unf i hle w hw
    simp only [cascadeLoops, List.mem_append] at hw
    rcases hw with hw | hw
    · have hs := innerLoop_sources early (loop == m - 1) (keep.getD loop 0) unf i w hw
      have hlt : loop < keep.length := by omega
      rw [hs, List.getD_eq_getElem keep 0 hlt]
      exact List.getElem_mem hlt
    · exact ih (loop + 1) _ _ (by omega) w hw

theorem length_filter_add_length_filter_not {α : Type} (l : List α) (p : α → Bool) :
    (l.filter p).length + (l.filter fun a => !p a).length = l.length := by
  induction l with
  | nil => rfl
  | cons a t ih => cases h : p a <;> simp [List.filter_cons, h] <;> omega

theorem keepCls_length (numHiddenLayers : ℕ) (ignoreCls : List ℕ)
    (hnd : ignoreCls.Nodup) (hsub : ∀ c ∈ ignoreCls, c < numHiddenLayers + 1) :
    (keepCls numHiddenLayers ignoreCls).length + ignoreCls.length =
      numHiddenLayers + 1 := by
  have hperm :
      List.Perm
        ((List.range (numHiddenLayers + 1)).filter fun c => decide (c ∈ ignoreCls))
        ignoreCls := by
    rw [List.perm_ext_iff_of_nodup ((List.nodup_range _).filter _) hnd]
    intro a
    simp only [List.mem_filter, List.mem_range, decide_eq_true_eq]
    exact ⟨fun h => h.2, fun h => ⟨hsub a h, h⟩⟩
  have hlen := hperm.length_eq
  have hsplit := length_filter_add_length_filter_not
    (List.range (numHiddenLayers + 1)) (fun c => decide (c ∈ ignoreCls))
  rw [hlen, List.length_range] at hsplit
  have hkeep : keepCls numHiddenLayers ignoreCls =
      (List.range (numHiddenLayers + 1)).filter fun c => !decide (c ∈ ignoreCls) := by
    unfold keepCls
    exact List.filter_congr (fun a _ => by simp)
  rw [hkeep]
  omega

/-- Claim C1.  Coverage fails on the code for two or more devices: with
`gpu_ids` of length 2, `batch_size = 2`, `num_hidden_layers = 1`, no ignored
heads (`max_loop = 2`, `keep_cls = [0, 1]`) and the early-exit pattern in
which the sole example of device 0 is not confident at head 0 while the sole
example of device 1 exits early, the permutation step writes to table
positions `[0, 2]`: position `1` is never written and position `2` lies
outside the `batch_size = 2` tables (an out-of-bounds numpy write), because
device 1 initialises `unfinished = [k + i]` from the stream counter `i = 2`
rather than from its shard offset `1`. -/
theorem C1_coverage_counterexample :
    permutateCore (fun i => i == 2) 2 2 1 [] = ([(0, 1, 1), (2, 2, 0)], 3) ∧
      ((permutateCore (fun i => i == 2) 2 2 1 []).1.map fun w => w.1) = [0, 2] ∧
      1 ∉ ((permutateCore (fun i => i == 2) 2 2 1 []).1.map fun w => w.1) ∧
      ∃ p ∈ (permutateCore (fun i => i == 2) 2 2 1 []).1.map fun w => w.1,
        2 ≤ p := by
  refine ⟨by decide, by decide, by decide, 2, by decide, by decide⟩

/-- Claim C3.  Consumption conservation: one `_permutate` call returns a
result exactly when the number of probability vectors its schedule consumes
equals the length of the flat input stream; whenever the two counts differ
the call fails hard (with the final assertion when the stream is too long,
with an out-of-range access when it is too short) instead of returning. -/
theorem C3_consumption_conservation (early : ℕ → Bool)
    (gpuCount batchSize numHiddenLayers : ℕ) (ignoreCls : List ℕ) (streamLen : ℕ) :
    ((∃ ws, permutate early gpuCount batchSize numHiddenLayers ignoreCls streamLen =
        .ok ws) ↔
      (permutateCore early gpuCount batchSize numHiddenLayers ignoreCls).2 =
        streamLen) ∧
    ((permutateCore early gpuCount batchSize numHiddenLayers ignoreCls).2 ≠
        streamLen →
      ∃ e, permutate early gpuCount batchSize numHiddenLayers ignoreCls streamLen =
        .error e) := by
  unfold permutate
  constructor
  · constructor
    · intro ⟨ws, hws⟩
      by_cases h1 : streamLen <
          (permutateCore early gpuCount batchSize numHiddenLayers ignoreCls).2
      · simp [h1] at hws
      · by_cases h2 : (permutateCore early gpuCount batchSize numHiddenLayers
            ignoreCls).2 = streamLen
        · exact h2
        · simp [h1, h2] at hws
    · intro h
      have h1 : ¬ streamLen <
          (permutateCore early gpuCount batchSize numHiddenLayers ignoreCls).2 := by
        omega
      refine ⟨(permutateCore early gpuCount batchSize numHiddenLayers ignoreCls).1, ?_⟩
      simp [h1, h]
  · intro h
    by_cases h1 : streamLen <
        (permutateCore early gpuCount batchSize numHiddenLayers ignoreCls).2
    · exact ⟨.indexError, by simp [h1]⟩
    · exact ⟨.assertionError, by simp [h1, h]⟩

/-- Claim C3 witness: a concrete instantiation (one device, batch of two,
two heads, head 0 ignored, nothing exits early, so the schedule consumes
three vectors) with a stream of length five, exercising the error side. -/
theorem C3_consumption_conservation_witness :
    (permutateCore (fun _ => false) 1 2 1 [0]).2 ≠ 5 ∧
      ∃ e, permutate (fun _ => false) 1 2 1 [0] 5 = .error e :=
  ⟨by decide, (C3_consumption_conservation (fun _ => false) 1 2 1 [0] 5).2 (by decide)⟩

/-- Claim C9.  With every head ignored (`num_hidden_layers = 1`,
`ignore_cls = [0, 1]`, so `max_loop = 0`) the code raises no
`InvalidConfiguration` error: the cascade body simply never runs, and the
call either fails the consumption assertion (nonempty stream) or proceeds
normally, returning the untouched all-zero tables (empty stream). -/
theorem C9_no_invalid_configuration_guard :
    permutate (fun _ => false) 1 2 1 [0, 1] 2 = .error .assertionError ∧
      permutate (fun _ => false) 1 2 1 [0, 1] 0 = .ok [] ∧
      maxLoop 1 [0, 1] = 0 := by
  refine ⟨rfl, rfl, rfl⟩

/-- Claim C2.  Monotone cascade / forced exit: when `ignore_cls` is a
duplicate-free proper subset of the heads `0..num_hidden_layers`, every
source head recorded by the cascade run lies in `keep_cls`; after the final
(`loop == max_loop - 1`) iteration the unfinished set is empty, so every
still-unfinished example was force-resolved there; and at any single
iteration an example is resolved exactly when its early-exit test holds or
the iteration is the last one (the writes and the carried-over unfinished
set are the corresponding filters of the current unfinished set). -/
theorem C2_monotone_cascade (early : ℕ → Bool) (numHiddenLayers : ℕ)
    (ignoreCls : List ℕ) (hnd : ignoreCls.Nodup)
    (hsub : ∀ c ∈ ignoreCls, c < numHiddenLayers + 1)
    (hlt : ignoreCls.length < numHiddenLayers + 1)
    (unf : List ℕ) (i : ℕ) :
    (∀ w ∈ (cascadeLoops early (maxLoop numHiddenLayers ignoreCls)
        (keepCls numHiddenLayers ignoreCls) 0 (maxLoop numHiddenLayers ignoreCls)
        unf i).1, w.2.2 ∈ keepCls numHiddenLayers ignoreCls) ∧
    (cascadeLoops early (maxLoop numHiddenLayers ignoreCls)
        (keepCls numHiddenLayers ignoreCls) 0 (maxLoop numHiddenLayers ignoreCls)
        unf i).2.1 = [] ∧
    (∀ (s : ℕ) (isLast : Bool) (unf2 : List ℕ) (j : ℕ),
      ((innerLoop early isLast s unf2 j).1.map fun w => (w.1, w.2.1)) =
        (unf2.zip (List.range' j unf2.length)).filter
          (fun p => early p.2 || isLast) ∧
      (innerLoop early isLast s unf2 j).2.1 =
        ((unf2.zip (List.range' j unf2.length)).filter
          (fun p => !(early p.2 || isLast))).map Prod.fst) := by
  have hkl := keepCls_length numHiddenLayers ignoreCls hnd hsub
  have hm : maxLoop numHiddenLayers ignoreCls =
      (keepCls numHiddenLayers ignoreCls).length := by
    unfold maxLoop; omega
  refine ⟨?_, ?_, fun s isLast unf2 j =>
    ⟨innerLoop_writes_char early isLast s unf2 j,
     innerLoop_unfinished_char early isLast s unf2 j⟩⟩
  · exact cascadeLoops_sources early _ _ _ 0 unf i (by omega)
  · exact cascadeLoops_final_empty early _ _ _ 0 unf i (by omega)
      (by unfold maxLoop; omega)

/-- Claim C2 witness: a run with two heads, head 0 ignored and nothing ever
confident ends with an empty unfinished set. -/
theorem C2_monotone_cascade_witness :
    (cascadeLoops (fun _ => false) (maxLoop 1 [0]) (keepCls 1 [0]) 0
      (maxLoop 1 [0]) [5, 7] 0).2.1 = [] :=
  (C2_monotone_cascade (fun _ => false) 1 [0] (by decide) (by decide) (by decide)
    [5, 7] 0).2.1

/-- Claim C7.  Ignore-set effect: for a duplicate-free
`ignore_cls ⊆ {0..num_hidden_layers}`, `max_loop + |ignore_cls| =
num_hidden_layers + 1` (the claimed subtraction formula, without
truncation); adding a fresh head to the ignore set strictly decreases
`max_loop`; `keep_cls` is sorted and contains exactly the non-ignored heads;
and enlarging the ignore set only removes entries from `keep_cls`, leaving
the surviving heads and their order unchanged. -/
theorem C7_ignore_set_effect (numHiddenLayers : ℕ) (ignoreCls : List ℕ)
    (hnd : ignoreCls.Nodup)
    (hsub : ∀ c ∈ ignoreCls, c < numHiddenLayers + 1) :
    maxLoop numHiddenLayers ignoreCls + ignoreCls.length = numHiddenLayers + 1 ∧
    (∀ h, h < numHiddenLayers + 1 → h ∉ ignoreCls →
      maxLoop numHiddenLayers (h :: ignoreCls) <
        maxLoop numHiddenLayers ignoreCls) ∧
    List.Sorted (· < ·) (keepCls numHiddenLayers ignoreCls) ∧
    (∀ c, c ∈ keepCls numHiddenLayers ignoreCls ↔
      c < numHiddenLayers + 1 ∧ c ∉ ignoreCls) ∧
    (∀ ig2 : List ℕ, (∀ c ∈ ignoreCls, c ∈ ig2) →
      keepCls numHiddenLayers ig2 =
        (keepCls numHiddenLayers ignoreCls).filter
          (fun c => decide (c ∉ ig2))) := by
  have hkl := keepCls_length numHiddenLayers ignoreCls hnd hsub
  refine ⟨by unfold maxLoop; omega, ?_, ?_, ?_, ?_⟩
  · intro h hh hmem
    have hnd2 : (h :: ignoreCls).Nodup := List.nodup_cons.mpr ⟨hmem, hnd⟩
    have hsub2 : ∀ c ∈ h :: ignoreCls, c < numHiddenLayers + 1 := by
      intro c hc
      rcases List.mem_cons.mp hc with hc | hc
      · exact hc ▸ hh
      · exact hsub c hc
    have hkl2 := keepCls_length numHiddenLayers (h :: ignoreCls) hnd2 hsub2
    simp only [List.length_cons] at hkl2
    unfold maxLoop
    simp only [List.length_cons]
    omega
  · exact (List.pairwise_lt_range _).filter _
  · intro c
    simp [keepCls, List.mem_filter, List.mem_range]
  · intro ig2 hss
    have hpt : ∀ a ∈ List.range (numHiddenLayers + 1),
        (decide (a ∉ ig2) : Bool) =
          (decide (a ∉ ig2) && decide (a ∉ ignoreCls)) := by
      intro a _
      by_cases h2 : a ∈ ig2
      · simp [h2]
      · have h1 : a ∉ ignoreCls := fun hc => h2 (hss a hc)
        simp [h1, h2]
    unfold keepCls
    rw [List.filter_filter]
    exact List.filter_congr hpt

/-- Claim C7 witness: three heads with head 1 ignored give
`max_loop + 1 = 3`. -/
theorem C7_ignore_set_effect_witness :
    maxLoop 2 [1] + ([1] : List ℕ).length = 3 :=
  (C7_ignore_set_effect 2 [1] (by decide) (by decide)).1

/-- Claim C8 counterexample: one shard of `N = 1` example, two kept heads,
an example that is not confident at the first head: the shard consumes two
probability vectors, not `N = 1` as the claim states. -/
theorem C8_counterexample :
    (permutateCore (fun _ => false) 1 1 1 []).2 = 2 ∧ (2 : ℕ) ≠ 1 :=
  ⟨by decide, by decide⟩

/-- Claim C8, amended.  Per-shard stream accounting: whenever
`max_loop >= 1`, the table positions written during one shard's cascade are
exactly the shard's positions, each exactly once (a permutation of the
initial unfinished list, so exactly `N` resolutions); the number of vectors
consumed is at least `N` — each example is consumed once per iteration it
stays unfinished, so the per-shard total can exceed `N` — and each single
iteration consumes exactly the current length of the unfinished set. -/
theorem C8_shard_stream_invariant (early : ℕ → Bool) (numHiddenLayers : ℕ)
    (ignoreCls : List ℕ) (hlt : ignoreCls.length < numHiddenLayers + 1)
    (unf : List ℕ) (i : ℕ) :
    List.Perm ((cascadeLoops early (maxLoop numHiddenLayers ignoreCls)
        (keepCls numHiddenLayers ignoreCls) 0 (maxLoop numHiddenLayers ignoreCls)
        unf i).1.map fun w => w.1) unf ∧
    i + unf.length ≤ (cascadeLoops early (maxLoop numHiddenLayers ignoreCls)
        (keepCls numHiddenLayers ignoreCls) 0 (maxLoop numHiddenLayers ignoreCls)
        unf i).2.2 ∧
    (∀ (s : ℕ) (isLast : Bool) (unf2 : List ℕ) (j : ℕ),
      (innerLoop early isLast s unf2 j).2.2 = j + unf2.length) := by
  have hm1 : 1 ≤ maxLoop numHiddenLayers ignoreCls := by unfold maxLoop; omega
  refine ⟨?_, ?_, fun s isLast unf2 j => innerLoop_counter early isLast s unf2 j⟩
  · have hperm := cascadeLoops_perm early (maxLoop numHiddenLayers ignoreCls)
      (keepCls numHiddenLayers ignoreCls) (maxLoop numHiddenLayers ignoreCls)
      0 unf i
    rw [cascadeLoops_final_empty early _ _ _ 0 unf i (by omega) hm1,
      List.append_nil] at hperm
    exact hperm
  · obtain ⟨f, hf⟩ : ∃ f, maxLoop numHiddenLayers ignoreCls = f + 1 :=
      ⟨maxLoop numHiddenLayers ignoreCls - 1, by omega⟩
    conv_rhs => rw [hf]
    simp only [cascadeLoops]
    exact le_trans (le_of_eq (innerLoop_counter early _ _ unf i).symm)
      (cascadeLoops_counter_ge early _ _ f 1 _ _)

/-- Claim C8 witness: the amended accounting at a concrete shard. -/
theorem C8_shard_stream_invariant_witness :
    List.Perm ((cascadeLoops (fun _ => false) (maxLoop 1 []) (keepCls 1 []) 0
      (maxLoop 1 []) [0] 0).1.map fun w => w.1) [0] :=
  (C8_shard_stream_invariant (fun _ => false) 1 [] (by decide) [0] 0).1

/-! Facts about the `_uncertainty` function. -/

theorem uncertainty_eq_clamped (labelSize : ℕ) (p : ℝ) :
    uncertainty labelSize p = uncertaintyClamped labelSize p := by
  unfold uncertainty uncertaintyClamped
  by_cases h1 : p < 1e-20
  · rw [if_pos (Or.inl h1)]
    have hlt : (1e-20:ℝ) < 1 - 1e-20 := by norm_num
    have hmin : min (1 - 1e-20 : ℝ) p = p := min_eq_right (by linarith)
    have hmax : max (1e-20 : ℝ) p = 1e-20 := max_eq_left h1.le
    rw [hmin, hmax]
  · by_cases h2 : (1:ℝ) - p < 1e-20
    · rw [if_pos (Or.inr h2)]
      have hmin : min (1 - 1e-20 : ℝ) p = 1 - 1e-20 := min_eq_left (by linarith)
      have hmax : max (1e-20 : ℝ) (1 - 1e-20) = 1 - 1e-20 :=
        max_eq_right (by norm_num)
      rw [hmin, hmax]
      dsimp only
      have hsub : (1:ℝ) - (1 - 1e-20) = 1e-20 := by ring
      rw [hsub]
      ring
    · have hle : (1:ℝ) - 1e-20 ≥ p := by linarith [not_lt.mp h2]
      rw [if_neg (by push_neg; exact ⟨not_lt.mp h1, not_lt.mp h2⟩)]
      have hmin : min (1 - 1e-20 : ℝ) p = p := min_eq_right hle
      have hmax : max (1e-20 : ℝ) p = p := max_eq_right (not_lt.mp h1)
      rw [hmin, hmax]

theorem uncertainty_of_lt (labelSize : ℕ) (p : ℝ) (h : p < 1e-20) :
    uncertainty labelSize p = uncertainty labelSize 1e-20 := by
  unfold uncertainty
  rw [if_pos (Or.inl h), if_neg (by push_neg; norm_num)]

theorem uncertainty_of_one_sub_lt (labelSize : ℕ) (p : ℝ) (h : 1 - p < 1e-20) :
    uncertainty labelSize p = uncertainty labelSize 1e-20 := by
  unfold uncertainty
  rw [if_pos (Or.inr h), if_neg (by push_neg; norm_num)]

theorem uncertainty_eps_pos (labelSize : ℕ) (h : 2 ≤ labelSize) :
    0 < uncertainty labelSize 1e-20 := by
  have hC : (2:ℝ) ≤ (labelSize : ℝ) := by exact_mod_cast h
  unfold uncertainty
  rw [if_neg (by push_neg; norm_num)]
  have hnum : (1e-20:ℝ) * Real.log 1e-20 +
      (1 - 1e-20) * Real.log (1 - 1e-20) < 0 := by
    have h1 : Real.log (1e-20:ℝ) < 0 := Real.log_neg (by norm_num) (by norm_num)
    have h2 : Real.log (1 - 1e-20:ℝ) < 0 := Real.log_neg (by norm_num) (by norm_num)
    have h3 : (1e-20:ℝ) * Real.log 1e-20 < 0 :=
      mul_neg_of_pos_of_neg (by norm_num) h1
    have h4 : (1 - 1e-20:ℝ) * Real.log (1 - 1e-20) < 0 :=
      mul_neg_of_pos_of_neg (by norm_num) h2
    linarith
  have hden : Real.log (1 / (labelSize:ℝ)) < 0 := by
    apply Real.log_neg
    · positivity
    · rw [div_lt_one (by linarith)]
      linarith
  exact div_pos_of_neg_of_neg hnum hden

theorem uncertainty_tendsto_at_zero (labelSize : ℕ) :
    Filter.Tendsto (uncertainty labelSize) (nhds 0)
      (nhds (uncertainty labelSize 1e-20)) := by
  have heq : (fun _ : ℝ => uncertainty labelSize 1e-20) =ᶠ[nhds (0:ℝ)]
      uncertainty labelSize := by
    filter_upwards [Iio_mem_nhds (show (0:ℝ) < 1e-20 by norm_num)] with p hp
    exact (uncertainty_of_lt labelSize p hp).symm
  exact Filter.Tendsto.congr' heq tendsto_const_nhds

theorem uncertainty_tendsto_at_one (labelSize : ℕ) :
    Filter.Tendsto (uncertainty labelSize) (nhds 1)
      (nhds (uncertainty labelSize 1e-20)) := by
  have heq : (fun _ : ℝ => uncertainty labelSize 1e-20) =ᶠ[nhds (1:ℝ)]
      uncertainty labelSize := by
    filter_upwards [Ioi_mem_nhds (show (1 - 1e-20:ℝ) < 1 by norm_num)] with p hp
    exact (uncertainty_of_one_sub_lt labelSize p (by simp only [Set.mem_Ioi] at hp; linarith)).symm
  exact Filter.Tendsto.congr' heq tendsto_const_nhds

theorem neg_binEntropy_eq (x : ℝ) :
    x * Real.log x + (1 - x) * Real.log (1 - x) = -Real.binEntropy x := by
  unfold Real.binEntropy
  rw [Real.log_inv, Real.log_inv]
  ring

theorem uncertainty_eq_binEntropy (labelSize : ℕ) (p : ℝ) :
    uncertainty labelSize p =
      Real.binEntropy (max 1e-20 (min (1 - 1e-20) p)) / Real.log labelSize := by
  rw [uncertainty_eq_clamped]
  unfold uncertaintyClamped
  dsimp only
  rw [neg_binEntropy_eq (max 1e-20 (min (1 - 1e-20) p)), one_div, Real.log_inv,
    neg_div_neg_eq]

theorem clamp_monotone {a b : ℝ} (hab : a ≤ b) :
    max (1e-20:ℝ) (min (1 - 1e-20) a) ≤ max 1e-20 (min (1 - 1e-20) b) :=
  max_le_max le_rfl (min_le_min le_rfl hab)

theorem uncertainty_monotoneOn (labelSize : ℕ) (h : 2 ≤ labelSize) :
    MonotoneOn (uncertainty labelSize) (Set.Icc (0:ℝ) (1/2)) := by
  have hlog : 0 < Real.log labelSize := by
    apply Real.log_pos
    have : (2:ℝ) ≤ (labelSize : ℝ) := by exact_mod_cast h
    linarith
  intro a ha b hb hab
  rw [uncertainty_eq_binEntropy, uncertainty_eq_binEntropy]
  apply (div_le_div_iff_of_pos_right hlog).mpr
  have hmem : ∀ c : ℝ, c ∈ Set.Icc (0:ℝ) (1/2) →
      max (1e-20:ℝ) (min (1 - 1e-20) c) ∈ Set.Icc (0:ℝ) 2⁻¹ := by
    intro c hc
    constructor
    · exact le_trans (by norm_num) (le_max_left _ _)
    · have : min (1 - 1e-20:ℝ) c ≤ 2⁻¹ := by
        refine le_trans (min_le_right _ _) ?_
        rw [← one_div]
        exact hc.2
      exact max_le (by norm_num) this
  exact Real.binEntropy_strictMonoOn.monotoneOn (hmem a ha) (hmem b hb)
    (clamp_monotone hab)

theorem uncertainty_antitoneOn (labelSize : ℕ) (h : 2 ≤ labelSize) :
    AntitoneOn (uncertainty labelSize) (Set.Icc (1/2:ℝ) 1) := by
  have hlog : 0 < Real.log labelSize := by
    apply Real.log_pos
    have : (2:ℝ) ≤ (labelSize : ℝ) := by exact_mod_cast h
    linarith
  intro a ha b hb hab
  rw [uncertainty_eq_binEntropy, uncertainty_eq_binEntropy]
  apply (div_le_div_iff_of_pos_right hlog).mpr
  have hmem : ∀ c : ℝ, c ∈ Set.Icc (1/2:ℝ) 1 →
      max (1e-20:ℝ) (min (1 - 1e-20) c) ∈ Set.Icc (2⁻¹:ℝ) 1 := by
    intro c hc
    constructor
    · have h1 : (2⁻¹:ℝ) ≤ min (1 - 1e-20) c := by
        apply le_min
        · norm_num
        · rw [← one_div]; exact hc.1
      exact le_trans h1 (le_max_right _ _)
    · exact max_le (by norm_num) (le_trans (min_le_left _ _) (by norm_num))
  exact Real.binEntropy_strictAntiOn.antitoneOn (hmem a ha) (hmem b hb)
    (clamp_monotone hab)

theorem uncertainty_half_eq_one : uncertainty 2 (1/2) = 1 := by
  unfold uncertainty
  rw [if_neg (by push_neg; norm_num)]
  dsimp only
  have h1 : (1:ℝ) - 1/2 = 1/2 := by norm_num
  have h2 : ((2:ℕ):ℝ) = 2 := by norm_num
  rw [h1, h2]
  have hlog : Real.log (1/2:ℝ) ≠ 0 := by
    rw [one_div, Real.log_inv]
    exact neg_ne_zero.mpr (ne_of_gt (Real.log_pos one_lt_two))
  rw [div_eq_one_iff_eq hlog]
  ring

/-- Claim C5.  The code's one-sided replacement (`prob = 1e-20` whenever
`prob < 1e-20` or `1 - prob < 1e-20`) computes the same value as the spec's
two-sided clamp of `p` into `[1e-20, 1 - 1e-20]`, for every real input and
every class count `C = label_size >= 2` (by symmetry of
`p*ln(p) + (1-p)*ln(1-p)` about `p = 1/2`). -/
theorem C5_uncertainty_formula (labelSize : ℕ) (p : ℝ) (h : 2 ≤ labelSize) :
    uncertainty labelSize p = uncertaintyClamped labelSize p :=
  uncertainty_eq_clamped labelSize p

/-- Claim C5 witness: the two forms agree at `C = 2`, `p = 0.99999`
(a point in the upper replacement region). -/
theorem C5_uncertainty_formula_witness :
    uncertainty 2 0.99999 = uncertaintyClamped 2 0.99999 :=
  C5_uncertainty_formula 2 0.99999 (by norm_num)

/-- Claim C6 counterexample: the code's uncertainty does not tend to `0` as
`p` tends to `0` (it is eventually constant at the positive value
`uncertainty C 1e-20`, because inputs below the floor are replaced by
`1e-20`). -/
theorem C6_counterexample :
    ¬ Filter.Tendsto (uncertainty 2) (nhds 0) (nhds 0) := by
  intro hcontra
  have hconst := uncertainty_tendsto_at_zero 2
  have heq : uncertainty 2 1e-20 = 0 := tendsto_nhds_unique hconst hcontra
  have hpos := uncertainty_eps_pos 2 (by norm_num)
  rw [heq] at hpos
  exact lt_irrefl 0 hpos

/-- Claim C6, amended.  `uncertainty(0.5)` with `C = 2` equals `1.0`; as `p`
tends to `0` or to `1` the uncertainty tends not to `0` but to the positive
constant `uncertainty C 1e-20` (the function is eventually constant in both
tails because of the `1e-20` replacement); and for every `C >= 2` the
function is monotone increasing on `[0, 0.5]` and monotone decreasing on
`[0.5, 1]`. -/
theorem C6_boundary_monotonicity :
    uncertainty 2 (1/2) = 1 ∧
    ∀ labelSize : ℕ, 2 ≤ labelSize →
      Filter.Tendsto (uncertainty labelSize) (nhds 0)
        (nhds (uncertainty labelSize 1e-20)) ∧
      Filter.Tendsto (uncertainty labelSize) (nhds 1)
        (nhds (uncertainty labelSize 1e-20)) ∧
      0 < uncertainty labelSize 1e-20 ∧
      MonotoneOn (uncertainty labelSize) (Set.Icc (0:ℝ) (1/2)) ∧
      AntitoneOn (uncertainty labelSize) (Set.Icc (1/2:ℝ) 1) := by
  refine ⟨uncertainty_half_eq_one, fun labelSize h => ?_⟩
  exact ⟨uncertainty_tendsto_at_zero labelSize,
    uncertainty_tendsto_at_one labelSize,
    uncertainty_eps_pos labelSize h,
    uncertainty_monotoneOn labelSize h,
    uncertainty_antitoneOn labelSize h⟩

/-- Claim C6 witness: the inner statement instantiated at `C = 2`. -/
theorem C6_boundary_monotonicity_witness :
    0 < uncertainty 2 1e-20 ∧ MonotoneOn (uncertainty 2) (Set.Icc (0:ℝ) (1/2)) :=
  ⟨(C6_boundary_monotonicity.2 2 (by norm_num)).2.2.1,
   (C6_boundary_monotonicity.2 2 (by norm_num)).2.2.2.1⟩

theorem foldr_max_le (x : ℝ) :
    ∀ xs : List ℝ, (∀ y ∈ xs, y ≤ x) → 0 ≤ x → xs.foldr max 0 ≤ x
  | [], _, h0 => by simpa using h0
  | y :: ys, hm, h0 => by
    simp only [List.foldr]
    exact max_le (hm y (List.mem_cons_self y ys))
      (foldr_max_le x ys (fun z hz => hm z (List.mem_cons_of_mem y hz)) h0)

/-- Claim C4 counterexample: for the probability vector `[0.2, 0.8]` the
scalar the code feeds to `_uncertainty` (`batch_probs[i][0]`, i.e.
component 0) is `0.2`, which is not the top-class (maximum) probability
`0.8`. -/
theorem C4_counterexample :
    decisionScalar [1/5, 4/5] ≠ topClassProb [1/5, 4/5] := by
  unfold decisionScalar topClassProb
  simp only [List.getD_cons_zero, List.foldr]
  rw [max_eq_left (by norm_num : (0:ℝ) ≤ 4/5),
    max_eq_right (by norm_num : (1:ℝ)/5 ≤ 4/5)]
  norm_num

/-- Claim C4, amended.  The scalar fed to the uncertainty function is the
first component (index 0) of the example's probability vector, not its
maximum; the two coincide exactly when class 0 attains the maximum (as in
the binary case with class 0 the positive class). -/
theorem C4_decision_scalar (x : ℝ) (xs : List ℝ)
    (hmax : ∀ y ∈ xs, y ≤ x) (h0 : 0 ≤ x) :
    decisionScalar (x :: xs) = x ∧ topClassProb (x :: xs) = x := by
  constructor
  · rfl
  · unfold topClassProb
    simp only [List.foldr]
    exact max_eq_left (foldr_max_le x xs hmax h0)

/-- Claim C4 witness: when component 0 is the largest entry, the fed scalar
is the top-class probability. -/
theorem C4_decision_scalar_witness :
    decisionScalar [(4:ℝ)/5, 1/5] = 4/5 ∧ topClassProb [(4:ℝ)/5, 1/5] = 4/5 :=
  C4_decision_scalar (4/5) [1/5]
    (by intro y hy; rw [List.mem_singleton] at hy; rw [hy]; norm_num)
    (by norm_num)

/-! Equivalence of the duplicated predict-path and score-path closures. -/

theorem scoreUncertainty_eq_uncertainty :
    scoreUncertainty = uncertainty := rfl

theorem scorePermInner_eq_predictPermInner (labelSize : ℕ) (speed : ℝ)
    (batchProbs : List (List ℝ)) (isLast : Bool) (source : ℕ) :
    ∀ (unf : List ℕ) (i : ℕ) (probs : List (List ℝ)) (sources : List ℕ),
      scorePermInner labelSize speed batchProbs isLast source unf i probs sources =
        predictPermInner labelSize speed batchProbs isLast source unf i probs
          sources := by
  intro unf
  induction unf with
  | nil => intro i probs sources; rfl
  | cons u rest ih =>
    intro i probs sources
    simp only [scorePermInner, predictPermInner, scoreUncertainty_eq_uncertainty]
    split
    · exact ih (i + 1) _ _
    · rw [ih (i + 1) probs sources]

theorem scoreCascade_eq_predictCascade (labelSize : ℕ) (speed : ℝ)
    (batchProbs : List (List ℝ)) (m : ℕ) (keep : List ℕ) :
    ∀ (fuel loop : ℕ) (unf : List ℕ) (i : ℕ) (probs : List (List ℝ))
      (sources : List ℕ),
      scoreCascade labelSize speed batchProbs m keep loop fuel unf i probs
          sources =
        predictCascade labelSize speed batchProbs m keep loop fuel unf i probs
          sources := by
  intro fuel
  induction fuel with
  | zero => intro loop unf i probs sources; rfl
  | succ f ih =>
    intro loop unf i probs sources
    simp only [scoreCascade, predictCascade,
      scorePermInner_eq_predictPermInner]
    rw [ih]

theorem scoreDevices_eq_predictDevices (labelSize : ℕ) (speed : ℝ)
    (batchProbs : List (List ℝ)) (dBatchSize m : ℕ) (keep : List ℕ) :
    ∀ (d i : ℕ) (probs : List (List ℝ)) (sources : List ℕ),
      scoreDevices labelSize speed batchProbs dBatchSize m keep d i probs
          sources =
        predictDevices labelSize speed batchProbs dBatchSize m keep d i probs
          sources := by
  intro d
  induction d with
  | zero => intro i probs sources; rfl
  | succ d ih =>
    intro i probs sources
    simp only [scoreDevices, predictDevices,
      scoreCascade_eq_predictCascade]
    rw [ih]

/-- Claim C10.  The `_uncertainty`/`_permutate` pair duplicated inside
`_get_predict_outputs` and the pair inside `_get_score_outputs` compute the
same function: for every configuration (device count, batch size, label
size, hidden-layer count, ignore list, speed threshold) and every flat
probability stream, the two `_permutate` closures return equal
`(probs, sources)` results (and fail in the same way). -/
theorem C10_predict_score_equivalence
    (gpuCount batchSize labelSize numHiddenLayers : ℕ) (ignoreCls : List ℕ)
    (speed : ℝ) (batchProbs : List (List ℝ)) :
    predictPermutate gpuCount batchSize labelSize numHiddenLayers ignoreCls
        speed batchProbs =
      scorePermutate gpuCount batchSize labelSize numHiddenLayers ignoreCls
        speed batchProbs := by
  unfold predictPermutate scorePermutate
  dsimp only
  rw [scoreDevices_eq_predictDevices]

end FastBERT
